import Mathlib

/-!
# Verification of `orchestrator/collaboration.py` (Datagram-Orchestrator)

A shallow embedding of the fork-lifecycle orchestrator in
`src/orchestrator/collaboration.py`.  The remote API gateway
(`run_gh_api`), the workflow-disable helper and the durable checklist
files live in `orchestrator/helpers.py`, which is not part of the
sources; they are modelled from the spec as noted on each definition:

* every `run_gh_api` call returns an `OpResult` supplied by an
  environment record — one field (or one indexed family, for loops)
  per call site, in the order the Python code issues the calls;
* checklist files are durable deduplicated string sets
  (spec section 4.2), modelled as `List String` with an idempotent
  `append_to_file`;
* every remote call, file mutation, sleep and log write is recorded in
  an event trace so that ordering and frame properties can be stated.

Time: `time.sleep n` is a `.sleep n` trace event; in the polling loop
of `create_new_fork` the probes themselves are instantaneous and the
elapsed clock advances by the sleep interval per failed probe, which
matches the guard `while time.time() - start_time < timeout` of the
Python code.
-/

/-- The uniform result shape of every gateway call (spec section 3,
`run_gh_api` in the source).  `error` is the raw error text; the Python
code reads it with `result.get('error', '')`, so an absent error is the
empty string. -/
structure OpResult where
  success : Bool
  output : String
  error : String
deriving DecidableEq, Repr

/-- The kind of remote API call, with its target, as issued through
`run_gh_api` in `collaboration.py`. -/
inductive ApiKind where
  /-- Source `api --silent -X PUT repos/{repo_path}/collaborators/{username}` -/
  | invite (username : String)
  /-- Source `api user/repository_invitations` -/
  | listInvitations (username : String)
  /-- Source `api --method PATCH /user/repository_invitations/{id}` -/
  | acceptInvitation (username : String)
  /-- Source `api repos/{repo_path} --jq .parent.full_name` -/
  | parentProbe (repo : String)
  /-- Source `api repos/{repo_path} --jq .default_branch` -/
  | defaultBranch (repo : String)
  /-- Source `api -X DELETE repos/{repo_path}` -/
  | deleteRepo (repo : String)
  /-- Source `api -X POST repos/{fork_repo}/merge-upstream` -/
  | mergeUpstream (repo : String)
  /-- Source `api -X POST repos/{source_repo}/forks` issued with the fork
  owner's credential, so the fork is created for `username`. -/
  | createFork (source : String) (username : String)
  /-- Source `api repos/{fork_repo_path}` existence probe -/
  | existsProbe (repo : String)
deriving DecidableEq, Repr

/-- The three durable checklist files. -/
inductive FileId where
  | invited
  | accepted
  | forked
deriving DecidableEq, Repr

/-- One observable effect of the orchestrator. -/
inductive Event where
  /-- a `run_gh_api` call -/
  | api (k : ApiKind)
  /-- Source `append_to_file` on a checklist file -/
  | appendFile (f : FileId) (entry : String)
  /-- Source `FORKED_REPOS_FILE.write_text` (the stale-entry repair) -/
  | writeForkedFile (lines : List String)
  /-- Source `disable_workflow repo wf` -/
  | disableWf (repo : String) (wf : String)
  /-- Source `time.sleep n` -/
  | sleep (n : Nat)
  /-- Source `write_log msg` -/
  | log (msg : String)
deriving DecidableEq, Repr

/-- Source `containsSub needle hay`: does `needle` occur as a contiguous run
inside `hay`? -/
def containsSub (needle : List Char) : List Char → Bool
  | [] => needle.isEmpty
  | c :: rest => needle.isPrefixOf (c :: rest) || containsSub needle rest

/-- Python's `needle in hay` on strings: substring containment. -/
def strContains (hay needle : String) : Bool :=
  containsSub needle.toList hay.toList

/-- Python's `s.lower()` per character (the error strings and names
this program compares are ASCII). -/
def pyLower (s : String) : String :=
  String.mk (s.data.map Char.toLower)

/-- Python's `s.strip()`: drop leading and trailing whitespace. -/
def pyStrip (s : String) : String :=
  String.mk (((s.data.dropWhile Char.isWhitespace).reverse.dropWhile
    Char.isWhitespace).reverse)

/-- Python's `s.split('/')` at character level: split on every
occurrence of `'/'`. -/
def splitSlash : List Char → List (List Char)
  | [] => [[]]
  | c :: rest =>
    if c = '/' then [] :: splitSlash rest
    else
      match splitSlash rest with
      | [] => [[c]]
      | h :: t => (c :: h) :: t

/-- Python's `s.split('/')` on strings. -/
def pySplitSlash (s : String) : List String :=
  (splitSlash s.data).map String.mk

/-- Python's `s.strip('"')`: drop all leading and trailing `"`. -/
def stripQuotes (s : String) : String :=
  String.mk (((s.toList.dropWhile (· == '"')).reverse.dropWhile (· == '"')).reverse)

/-- Modelled from the spec: `append_to_file` from
`orchestrator/helpers.py` (not under `src/`).  Spec section 4.2: the
checklist store's `add` is an idempotent append — adding an existing id
is a no-op. -/
def append_to_file (lines : List String) (entry : String) : List String :=
  if entry ∈ lines then lines else lines ++ [entry]

/-- Source `"already a collaborator" in result.get('error','').lower()` —
the invite flow's recoverable-error test (`invoke_auto_invite`). -/
def invite_error_is_convergence (err : String) : Bool :=
  strContains (pyLower err) "already a collaborator"

/-- Source `'forks must have unique names' in result.get('error','').lower()`
— the fork-creation recoverable-error test (`create_new_fork`). -/
def fork_error_is_convergence (err : String) : Bool :=
  strContains (pyLower err) "forks must have unique names"

/-- Source `any(keyword in error_msg for keyword in ['up-to-date',
'up to date', 'already'])` on the lowercased error — the sync
recoverable-error test (`sync_fork_with_upstream`). -/
def sync_error_is_convergence (err : String) : Bool :=
  strContains (pyLower err) "up-to-date" ||
  strContains (pyLower err) "up to date" ||
  strContains (pyLower err) "already"

/-- Source `check_if_correct_fork`: the parentage probe result is trimmed,
stripped of quotes, and compared case-insensitively with the expected
parent; a failed probe means `False`.  `res` is the gateway's answer to
`api repos/{repo_path} --jq .parent.full_name`. -/
def check_if_correct_fork (res : OpResult) (expected_parent : String) : Bool :=
  if !res.success then false
  else pyLower (stripQuotes (pyStrip res.output)) == pyLower expected_parent

/-- Source `get_default_branch`: the branch from the probe when it succeeded
with non-empty output, else the fallback `"main"`. -/
def get_default_branch (res : OpResult) : String :=
  if res.success && !(pyStrip res.output == "") then stripQuotes (pyStrip res.output)
  else "main"

/-- Source `delete_repository`: one DELETE call; on success sleep 5 and return
`true`, on failure write a log line and return `false`. -/
def delete_repository (res : OpResult) (repo_path : String) : Bool × List Event :=
  if res.success then
    (true, [Event.api (ApiKind.deleteRepo repo_path), Event.sleep 5])
  else
    (false, [Event.api (ApiKind.deleteRepo repo_path),
             Event.log ("Failed to delete " ++ repo_path)])

/-- Environment of one `sync_fork_with_upstream` call: the gateway's
answers to its two API calls, in program order. -/
structure SyncEnv where
  /-- answer to the default-branch probe -/
  branchRes : OpResult
  /-- answer to the merge-upstream POST -/
  syncRes : OpResult
deriving DecidableEq, Repr

/-- Source `sync_fork_with_upstream`: resolve the default branch, disable the
workflow (best effort), POST merge-upstream; success, or a failure whose
error text passes `sync_error_is_convergence`, count as `true`. -/
def sync_fork_with_upstream (env : SyncEnv) (fork_repo : String) : Bool × List Event :=
  let tr := [Event.api (ApiKind.defaultBranch fork_repo),
             Event.disableWf fork_repo "datagram-runner.yml",
             Event.api (ApiKind.mergeUpstream fork_repo)]
  if env.syncRes.success then (true, tr)
  else if sync_error_is_convergence env.syncRes.error then (true, tr)
  else (false, tr ++ [Event.log ("Sync failed: " ++ env.syncRes.error)])

/-- Poll interval of `create_new_fork` (`time.sleep(5)`). -/
def fork_poll_interval : Nat := 5

/-- Poll timeout of `create_new_fork` (`timeout = 120`). -/
def fork_wait_timeout : Nat := 120

/-- Number of iterations of the guard `while elapsed < timeout` when
the elapsed clock advances by `fork_poll_interval` per failed probe:
the guard holds exactly for elapsed in 0, 5, …, 115, i.e. for
`fork_wait_timeout / fork_poll_interval = 24` iterations. -/
def fork_poll_max_iters : Nat := fork_wait_timeout / fork_poll_interval

/-- The polling loop of `create_new_fork`: probe the fork path; on a
successful probe stop with `true`; otherwise sleep the interval and
retry, for at most `n` more iterations (`n` is the number of guard
passes remaining; `k` is the index of the next probe, answered by
`probe k`).  Returns whether the fork became ready, plus the trace. -/
def pollFork (probe : Nat → OpResult) (repo : String) : Nat → Nat → Bool × List Event
  | 0, _ => (false, [])
  | n + 1, k =>
    if (probe k).success then
      (true, [Event.api (ApiKind.existsProbe repo)])
    else
      let rest := pollFork probe repo n (k + 1)
      (rest.1, Event.api (ApiKind.existsProbe repo) ::
               Event.sleep fork_poll_interval :: rest.2)

/-- Environment of one `create_new_fork` call. -/
structure CreateEnv where
  /-- answer to the fork-creation POST -/
  forkCreateRes : OpResult
  /-- answer to the k-th existence probe of the polling loop -/
  probe : Nat → OpResult

/-- Source `create_new_fork username token source_repo`: stale-entry repair on
the forked checklist, the fork-creation POST (a failure whose error
passes `fork_error_is_convergence` is tolerated), the readiness poll,
the best-effort workflow disable and the checklist append.  Returns
(success, new forked-checklist contents, trace).  `repo_name` is
`source_repo.split('/')[1]` (the source path always has the shape
`owner/repo`, so index 1 exists; `getD` models the defined case). -/
def create_new_fork (env : CreateEnv) (username : String) (source_repo : String)
    (forked : List String) : Bool × List String × List Event :=
  let repo_name := (pySplitSlash source_repo).getD 1 ""
  let fork_repo_path := username ++ "/" ++ repo_name
  -- stale cache entry repair
  let repaired :=
    if username ∈ forked then forked.filter (fun line => line ≠ username) else forked
  let repairTr : List Event :=
    if username ∈ forked then [Event.writeForkedFile repaired] else []
  let createTr := repairTr ++ [Event.api (ApiKind.createFork source_repo username)]
  if !env.forkCreateRes.success ∧ ¬fork_error_is_convergence env.forkCreateRes.error then
    (false, repaired,
      createTr ++ [Event.log ("Fork failed for @" ++ username ++ ": " ++
                              env.forkCreateRes.error)])
  else
    let poll := pollFork env.probe fork_repo_path fork_poll_max_iters 0
    if !poll.1 then
      (false, repaired, createTr ++ poll.2)
    else
      (true, append_to_file repaired username,
        createTr ++ poll.2 ++
          [Event.disableWf fork_repo_path "datagram-runner.yml",
           Event.appendFile FileId.forked username])

/-! ## The collaborator-invite flow (`invoke_auto_invite`) -/

/-- Source `[u for u in token_cache.values() if u not in invited_users and
u != main_username]` — the candidate list of the invite flow.
`cacheValues` is `token_cache.values()` in dict order. -/
def users_to_invite (cacheValues invited : List String) (mainU : String) : List String :=
  cacheValues.filter (fun u => !invited.contains u && u != mainU)

/-- The body of the invite loop for one user: the PUT call, then either
a fresh success or an "already a collaborator" failure appends the user
to the invited checklist and counts as success; any other failure
counts as failed.  Returns (new invited list, counted as success?,
events). -/
def invite_step (res : OpResult) (username : String) (invited : List String) :
    List String × Bool × List Event :=
  if res.success then
    (append_to_file invited username, true,
     [Event.api (ApiKind.invite username), Event.appendFile FileId.invited username,
      Event.sleep 1])
  else if invite_error_is_convergence res.error then
    (append_to_file invited username, true,
     [Event.api (ApiKind.invite username), Event.appendFile FileId.invited username,
      Event.sleep 1])
  else
    (invited, false, [Event.api (ApiKind.invite username), Event.sleep 1])

/-- The invite loop over the precomputed candidate list.  `env i` is the
gateway's answer to the i-th PUT call (`i` counts from `k`).  Returns
(invited checklist, success count, failed count, trace). -/
def invite_loop (env : Nat → OpResult) :
    List String → Nat → List String → List String × Nat × Nat × List Event
  | [], _, invited => (invited, 0, 0, [])
  | u :: rest, k, invited =>
    let step := invite_step (env k) u invited
    let next := invite_loop env rest (k + 1) step.1
    (next.1,
     (if step.2.1 then 1 else 0) + next.2.1,
     (if step.2.1 then 0 else 1) + next.2.2.1,
     step.2.2 ++ next.2.2.2)

/-- Source `invoke_auto_invite`: filter the candidate list against the invited
checklist snapshot and the main account, then run the invite loop.
The config/token-cache guards of the Python code only cause an early
return with no effects, which coincides with the loop on an empty
candidate list. -/
def invoke_auto_invite (env : Nat → OpResult) (cacheValues invited : List String)
    (mainU : String) : List String × Nat × Nat × List Event :=
  invite_loop env (users_to_invite cacheValues invited mainU) 0 invited

/-! ## The auto-accept flow (`invoke_auto_accept`) -/

/-- One entry of the parsed invitation listing: `inv['id']` and
`inv.get('repository', {}).get('full_name', '')`. -/
structure Invitation where
  id : Nat
  full_name : String
deriving DecidableEq, Repr

/-- Environment of one account's iteration in `invoke_auto_accept`.
`parsed = none` models `json.loads(result["output"])` (or the key
lookups) raising `JSONDecodeError` / `KeyError`. -/
structure AcceptEnv where
  /-- answer to `api user/repository_invitations` -/
  fetchRes : OpResult
  /-- the parse of `fetchRes.output`; `none` is a parse failure -/
  parsed : Option (List Invitation)
  /-- answer to the accept PATCH call -/
  acceptRes : OpResult

/-- How one account's iteration of the accept loop ended. -/
inductive AcceptOutcome where
  | skipped
  | fetchFailed
  | accepted
  | acceptFailed
  | noInvite
  | parseFailed
deriving DecidableEq, Repr

/-- One account's iteration of `invoke_auto_accept`: skip if already in
the accepted checklist, else fetch the invitation listing, find the
first invitation whose repository matches `targetRepo` (already
lowercased at the call site) and accept it.  A fetch failure, a parse
failure or a missing invitation leaves the checklist alone and moves
on.  Returns (new accepted list, outcome, events). -/
def accept_step (env : AcceptEnv) (username targetRepo : String)
    (accepted : List String) : List String × AcceptOutcome × List Event :=
  if username ∈ accepted then
    (accepted, AcceptOutcome.skipped, [])
  else
    let fetchTr := [Event.api (ApiKind.listInvitations username)]
    -- a fetch failure `continue`s, skipping the end-of-body sleep
    if !env.fetchRes.success then
      (accepted, AcceptOutcome.fetchFailed, fetchTr)
    else
      match env.parsed with
      | none =>
        (accepted, AcceptOutcome.parseFailed, fetchTr ++ [Event.sleep 1])
      | some invitations =>
        match invitations.find? (fun inv => pyLower inv.full_name == targetRepo) with
        | some _ =>
          let acceptTr := fetchTr ++ [Event.api (ApiKind.acceptInvitation username)]
          if env.acceptRes.success then
            (append_to_file accepted username, AcceptOutcome.accepted,
             acceptTr ++ [Event.appendFile FileId.accepted username, Event.sleep 1])
          else
            (accepted, AcceptOutcome.acceptFailed, acceptTr ++ [Event.sleep 1])
        | none =>
          (accepted, AcceptOutcome.noInvite, fetchTr ++ [Event.sleep 1])

/-- The accept loop over the token cache's usernames; `envs i` is the
environment of the i-th account.  Returns (accepted checklist, outcome
list, trace). -/
def accept_loop (envs : Nat → AcceptEnv) (targetRepo : String) :
    List String → Nat → List String → List String × List AcceptOutcome × List Event
  | [], _, accepted => (accepted, [], [])
  | u :: rest, k, accepted =>
    let step := accept_step (envs k) u targetRepo accepted
    let next := accept_loop envs targetRepo rest (k + 1) step.1
    (next.1, step.2.1 :: next.2.1, step.2.2 ++ next.2.2)

/-- Source `invoke_auto_accept`: the target repo is lowercased once, then every
cached account is processed in order. -/
def invoke_auto_accept (envs : Nat → AcceptEnv) (cacheValues accepted : List String)
    (mainU repoName : String) : List String × List AcceptOutcome × List Event :=
  accept_loop envs (pyLower (mainU ++ "/" ++ repoName)) cacheValues 0 accepted

/-! ## The batch orchestrator (`invoke_auto_create_or_sync_fork`) -/

/-- Environment of one account's iteration of the orchestrator: the
gateway's answers to the calls that iteration can make, in program
order. -/
structure AccountEnv where
  /-- answer to the parentage probe of `check_if_correct_fork` -/
  parentRes : OpResult
  /-- answer to the destructive-mode existence check `api repos/{path}` -/
  existsRes : OpResult
  /-- answer to the DELETE of `delete_repository` -/
  deleteRes : OpResult
  /-- environment of `create_new_fork` -/
  create : CreateEnv
  /-- environment of `sync_fork_with_upstream` -/
  sync : SyncEnv

/-- One account's iteration of the orchestrator loop.  `destructive`
is `action == '2'`.  Returns (counted as success?, new forked
checklist, events).  The failed-delete branch `continue`s, which skips
the end-of-body pacing `time.sleep(2)`; every other path ends with it. -/
def account_step (destructive : Bool) (env : AccountEnv)
    (username mainU repoName : String) (forked : List String) :
    Bool × List String × List Event :=
  let fork_repo_path := username ++ "/" ++ repoName
  let source_repo := mainU ++ "/" ++ repoName
  let is_fork_valid := check_if_correct_fork env.parentRes source_repo
  let probeTr := [Event.api (ApiKind.parentProbe fork_repo_path)]
  if destructive then
    let existsTr := probeTr ++ [Event.api (ApiKind.existsProbe fork_repo_path)]
    if env.existsRes.success then
      let del := delete_repository env.deleteRes fork_repo_path
      if !del.1 then
        -- failed delete: count as failed, `continue` (skips the pacing sleep)
        (false, forked, existsTr ++ del.2)
      else
        let created := create_new_fork env.create username source_repo forked
        (created.1, created.2.1, existsTr ++ del.2 ++ created.2.2 ++ [Event.sleep 2])
    else
      let created := create_new_fork env.create username source_repo forked
      (created.1, created.2.1, existsTr ++ created.2.2 ++ [Event.sleep 2])
  else
    if is_fork_valid then
      let synced := sync_fork_with_upstream env.sync fork_repo_path
      (synced.1, forked, probeTr ++ synced.2 ++ [Event.sleep 2])
    else
      let created := create_new_fork env.create username source_repo forked
      (created.1, created.2.1, probeTr ++ created.2.2 ++ [Event.sleep 2])

/-- The orchestrator loop over the deduplicated collaborator list;
`envs i` is the i-th account's environment.  Returns (forked checklist,
success count, failed count, trace). -/
def orch_loop (envs : Nat → AccountEnv) (destructive : Bool)
    (mainU repoName : String) :
    List String → Nat → List String → List String × Nat × Nat × List Event
  | [], _, forked => (forked, 0, 0, [])
  | u :: rest, k, forked =>
    let step := account_step destructive (envs k) u mainU repoName forked
    let next := orch_loop envs destructive mainU repoName rest (k + 1) step.2.1
    (next.1,
     (if step.1 then 1 else 0) + next.2.1,
     (if step.1 then 0 else 1) + next.2.2.1,
     step.2.2 ++ next.2.2.2)

/-- Python dict-comprehension key order: first occurrence of each key
is kept, later duplicates are dropped (re-assignment keeps the original
position; only the value changes, and the value — the token — is not
part of this model). -/
def dedupFirst : List String → List String
  | [] => []
  | u :: rest => u :: dedupFirst (rest.filter (fun v => v ≠ u))
termination_by l => l.length
decreasing_by
  simp only [List.length_cons]
  exact Nat.lt_succ_of_le (List.length_filter_le _ _)

/-- Source `{u: t for t, u in token_cache.items() if u != main_username}` —
the orchestrator's collaborator list, in dict order. -/
def users_to_process (cacheValues : List String) (mainU : String) : List String :=
  dedupFirst (cacheValues.filter (fun u => u != mainU))

/-- Source `invoke_auto_create_or_sync_fork`: mode `action` (the operator's
validated choice, `"1"` or `"2"`), destructive mode demands the
confirmation answer `confirm` to lowercase to `"y"` — anything else
aborts the whole batch before any account is touched.  Returns (forked
checklist, success count, failed count, trace). -/
def invoke_auto_create_or_sync_fork (envs : Nat → AccountEnv)
    (action confirm : String) (cacheValues forked : List String)
    (mainU repoName : String) : List String × Nat × Nat × List Event :=
  let users := users_to_process cacheValues mainU
  if users.isEmpty then (forked, 0, 0, [])
  else if action == "2" && pyLower confirm != "y" then (forked, 0, 0, [])
  else orch_loop envs (action == "2") mainU repoName users 0 forked

/-! ## Trace observations -/

/-- Is this event a fork-creation call? -/
def isCreateEvent : Event → Bool
  | Event.api (ApiKind.createFork _ _) => true
  | _ => false

/-- Is this event a fork-creation call for this particular owner? -/
def isCreateEventFor (u : String) : Event → Bool
  | Event.api (ApiKind.createFork _ v) => v == u
  | _ => false

/-- Is this event a repository-deletion call? -/
def isDeleteEvent : Event → Bool
  | Event.api (ApiKind.deleteRepo _) => true
  | _ => false

/-- Is this event a merge-from-upstream call? -/
def isMergeEvent : Event → Bool
  | Event.api (ApiKind.mergeUpstream _) => true
  | _ => false

/-- Is this event an invite call for this particular account? -/
def isInviteEventFor (u : String) : Event → Bool
  | Event.api (ApiKind.invite v) => v == u
  | _ => false

/-- Walking the trace left to right, some `p`-event occurs strictly
before any `q`-event (vacuously true when no `q`-event occurs). -/
def occursBeforeAny (p q : Event → Bool) : List Event → Bool
  | [] => true
  | e :: rest => if q e then false else if p e then true else occursBeforeAny p q rest

/-- Total units slept along a trace. -/
def sleepTotal (tr : List Event) : Nat :=
  (tr.map (fun e => match e with | Event.sleep n => n | _ => 0)).sum

/-- Does this API call target the main account — an invite of the main
account, or a fork-creation on behalf of the main account, or a
deletion / sync / probe aimed at the main account's own copy of the
repository? -/
def apiTargetsMain (mainU repoName : String) : ApiKind → Bool
  | ApiKind.invite u => u == mainU
  | ApiKind.listInvitations _ => false
  | ApiKind.acceptInvitation _ => false
  | ApiKind.parentProbe r => r == mainU ++ "/" ++ repoName
  | ApiKind.defaultBranch r => r == mainU ++ "/" ++ repoName
  | ApiKind.deleteRepo r => r == mainU ++ "/" ++ repoName
  | ApiKind.mergeUpstream r => r == mainU ++ "/" ++ repoName
  | ApiKind.createFork _ u => u == mainU
  | ApiKind.existsProbe r => r == mainU ++ "/" ++ repoName

/-- Does this event target the main account (see `apiTargetsMain`)? -/
def eventTargetsMain (mainU repoName : String) : Event → Bool
  | Event.api k => apiTargetsMain mainU repoName k
  | _ => false

/-- Is this event the stale-entry repair write of the forked
checklist file? -/
def isWriteEvent : Event → Bool
  | Event.writeForkedFile _ => true
  | _ => false

/-- Is this event a fork-existence probe? -/
def isProbeEvent : Event → Bool
  | Event.api (ApiKind.existsProbe _) => true
  | _ => false

/-- A successful gateway answer (sample environment data). -/
def resOk : OpResult := { success := true, output := "", error := "" }

/-- A failed gateway answer with the given error text (sample
environment data). -/
def resFail (e : String) : OpResult := { success := false, output := "", error := e }

/-- Sample probe that succeeds immediately. -/
def probeAlways : Nat → OpResult := fun _ => resOk

/-- Sample probe that never succeeds. -/
def probeNever : Nat → OpResult := fun _ => resFail "HTTP 404"

/-- Sample creation environment whose every call succeeds. -/
def envCreateOk : CreateEnv := { forkCreateRes := resOk, probe := probeAlways }

/-- Sample creation environment whose fork never becomes ready. -/
def envCreateNever : CreateEnv := { forkCreateRes := resOk, probe := probeNever }

/-- Sample account environment: the fork path is occupied and the
deletion call fails. -/
def envDeleteFail : AccountEnv :=
  { parentRes := resFail "HTTP 404", existsRes := resOk,
    deleteRes := resFail "HTTP 403: Must have admin rights",
    create := envCreateOk, sync := { branchRes := resOk, syncRes := resOk } }

/-- Sample account environment: the fork path is occupied and the
deletion call succeeds. -/
def envDeleteOk : AccountEnv :=
  { parentRes := resFail "HTTP 404", existsRes := resOk, deleteRes := resOk,
    create := envCreateOk, sync := { branchRes := resOk, syncRes := resOk } }

/-- Sample account environment: a valid fork already exists and every
call succeeds. -/
def envValidFork : AccountEnv :=
  { parentRes := { success := true, output := "\"main/repo\"", error := "" },
    existsRes := resOk, deleteRes := resOk,
    create := envCreateOk, sync := { branchRes := resOk, syncRes := resOk } }

/-- Sample accept environment whose invitation listing does not
parse. -/
def envParseFail : AcceptEnv :=
  { fetchRes := { success := true, output := "not json", error := "" },
    parsed := none, acceptRes := resOk }

/-! ## Lemmas about the polling loop -/

lemma pollFork_events (probe : Nat → OpResult) (repo : String) :
    ∀ n k, ∀ e ∈ (pollFork probe repo n k).2,
      e = Event.api (ApiKind.existsProbe repo) ∨ e = Event.sleep fork_poll_interval := by
  intro n
  induction n with
  | zero => intro k e he; simp [pollFork] at he
  | succ m ih =>
    intro k e he
    simp only [pollFork] at he
    by_cases h : (probe k).success
    · simp [h] at he; simp [he]
    · simp [h] at he
      rcases he with he | he | he
      · simp [he]
      · simp [he]
      · exact ih (k + 1) e he

lemma pollFork_sleepTotal (probe : Nat → OpResult) (repo : String) :
    ∀ n k, sleepTotal (pollFork probe repo n k).2 ≤ n * fork_poll_interval := by
  intro n
  induction n with
  | zero => intro k; simp [pollFork, sleepTotal]
  | succ m ih =>
    intro k
    simp only [pollFork]
    by_cases h : (probe k).success
    · simp [h, sleepTotal]
    · simp only [h, if_neg, Bool.false_eq_true, if_false]
      simp only [sleepTotal, List.map_cons, List.sum_cons]
      have := ih (k + 1)
      simp only [sleepTotal] at this
      calc 0 + (fork_poll_interval +
            ((pollFork probe repo m (k+1)).2.map
              (fun e => match e with | Event.sleep n => n | _ => 0)).sum)
          ≤ fork_poll_interval + m * fork_poll_interval := by omega
        _ = (m + 1) * fork_poll_interval := by ring

lemma pollFork_ready_has_success (probe : Nat → OpResult) (repo : String) :
    ∀ n k, (pollFork probe repo n k).1 = true →
      ∃ j, k ≤ j ∧ j < k + n ∧ (probe j).success = true := by
  intro n
  induction n with
  | zero => intro k h; simp [pollFork] at h
  | succ m ih =>
    intro k h
    simp only [pollFork] at h
    by_cases hp : (probe k).success
    · exact ⟨k, le_refl k, by omega, hp⟩
    · simp [hp] at h
      obtain ⟨j, hj1, hj2, hj3⟩ := ih (k + 1) h
      exact ⟨j, by omega, by omega, hj3⟩

lemma pollFork_all_fail (probe : Nat → OpResult) (repo : String) :
    ∀ n k, (∀ j, j < n → (probe (k + j)).success = false) →
      (pollFork probe repo n k).1 = false := by
  intro n
  induction n with
  | zero => intro k _; simp [pollFork]
  | succ m ih =>
    intro k hall
    simp only [pollFork]
    have h0 : (probe k).success = false := by
      have := hall 0 (by omega); simpa using this
    simp only [h0, Bool.false_eq_true, if_false]
    exact ih (k + 1) (fun j hj => by
      have := hall (j + 1) (by omega)
      simpa [Nat.add_assoc, Nat.add_comm 1 j] using this)

/-! ## Lemmas about `create_new_fork` and `sync_fork_with_upstream` -/

/-- A Boolean event observation that rejects every shape of event a
`create_new_fork` call can emit rejects everything in its trace. -/
lemma create_new_fork_trace_pred (env : CreateEnv) (u src : String)
    (forked : List String) (P : Event → Bool)
    (h1 : P (Event.writeForkedFile (forked.filter (fun line => line ≠ u))) = false)
    (h2 : P (Event.api (ApiKind.createFork src u)) = false)
    (h3 : ∀ m, P (Event.log m) = false)
    (h4 : P (Event.api (ApiKind.existsProbe
            (u ++ "/" ++ (pySplitSlash src).getD 1 ""))) = false)
    (h5 : ∀ n, P (Event.sleep n) = false)
    (h6 : P (Event.disableWf (u ++ "/" ++ (pySplitSlash src).getD 1 "")
            "datagram-runner.yml") = false)
    (h7 : P (Event.appendFile FileId.forked u) = false) :
    ∀ e ∈ (create_new_fork env u src forked).2.2, P e = false := by
  intro e he
  have hpoll := pollFork_events env.probe
    (u ++ "/" ++ (pySplitSlash src).getD 1 "") fork_poll_max_iters 0
  simp only [create_new_fork] at he
  split at he
  · by_cases hmem : u ∈ forked <;>
      simp only [hmem, if_true, if_false, List.append_assoc, List.cons_append,
        List.nil_append, List.mem_append, List.mem_cons, List.not_mem_nil,
        or_false, false_or] at he
    · rcases he with he | he | he
      · rw [he]; exact h1
      · rw [he]; exact h2
      · rw [he]; exact h3 _
    · rcases he with he | he
      · rw [he]; exact h2
      · rw [he]; exact h3 _
  · split at he <;>
      by_cases hmem : u ∈ forked <;>
      simp only [hmem, if_true, if_false, List.append_assoc, List.cons_append,
        List.nil_append, List.mem_append, List.mem_cons, List.not_mem_nil,
        or_false, false_or] at he
    · rcases he with he | he | he
      · rw [he]; exact h1
      · rw [he]; exact h2
      · rcases hpoll e he with h | h <;> rw [h]
        · exact h4
        · exact h5 _
    · rcases he with he | he
      · rw [he]; exact h2
      · rcases hpoll e he with h | h <;> rw [h]
        · exact h4
        · exact h5 _
    · rcases he with he | he | he | he | he
      · rw [he]; exact h1
      · rw [he]; exact h2
      · rcases hpoll e he with h | h <;> rw [h]
        · exact h4
        · exact h5 _
      · rw [he]; exact h6
      · rw [he]; exact h7
    · rcases he with he | he | he | he
      · rw [he]; exact h2
      · rcases hpoll e he with h | h <;> rw [h]
        · exact h4
        · exact h5 _
      · rw [he]; exact h6
      · rw [he]; exact h7

/-- A Boolean event observation that rejects every shape of event a
`sync_fork_with_upstream` call can emit rejects everything in its
trace. -/
lemma sync_trace_pred (env : SyncEnv) (fr : String) (P : Event → Bool)
    (h1 : P (Event.api (ApiKind.defaultBranch fr)) = false)
    (h2 : P (Event.disableWf fr "datagram-runner.yml") = false)
    (h3 : P (Event.api (ApiKind.mergeUpstream fr)) = false)
    (h4 : ∀ m, P (Event.log m) = false) :
    ∀ e ∈ (sync_fork_with_upstream env fr).2, P e = false := by
  intro e he
  simp only [sync_fork_with_upstream] at he
  split at he
  · simp only [List.mem_cons, List.not_mem_nil, or_false] at he
    rcases he with he | he | he <;> rw [he]
    · exact h1
    · exact h2
    · exact h3
  · split at he <;>
      simp only [List.append_assoc, List.cons_append, List.nil_append,
        List.mem_cons, List.mem_append, List.not_mem_nil, or_false] at he
    · rcases he with he | he | he <;> rw [he]
      · exact h1
      · exact h2
      · exact h3
    · rcases he with he | he | he | he <;> rw [he]
      · exact h1
      · exact h2
      · exact h3
      · exact h4 _

/-- A Boolean event observation that rejects every shape of event one
account's orchestrator iteration can emit rejects everything in its
trace.  The two spellings of the fork path (direct, and through the
Python `split('/')[1]` recomputation inside `create_new_fork`)
coincide for slash-free names but are kept apart here. -/
lemma account_step_trace_pred (d : Bool) (env : AccountEnv)
    (u mainU repoName : String) (forked : List String) (P : Event → Bool)
    (hparent : P (Event.api (ApiKind.parentProbe (u ++ "/" ++ repoName))) = false)
    (hexists : P (Event.api (ApiKind.existsProbe (u ++ "/" ++ repoName))) = false)
    (hdelete : P (Event.api (ApiKind.deleteRepo (u ++ "/" ++ repoName))) = false)
    (hsleep : ∀ n, P (Event.sleep n) = false)
    (hlog : ∀ m, P (Event.log m) = false)
    (hwrite : P (Event.writeForkedFile (forked.filter (fun line => line ≠ u))) = false)
    (hcreate : P (Event.api (ApiKind.createFork (mainU ++ "/" ++ repoName) u)) = false)
    (hprobe2 : P (Event.api (ApiKind.existsProbe
        (u ++ "/" ++ (pySplitSlash (mainU ++ "/" ++ repoName)).getD 1 ""))) = false)
    (hdis2 : P (Event.disableWf
        (u ++ "/" ++ (pySplitSlash (mainU ++ "/" ++ repoName)).getD 1 "")
        "datagram-runner.yml") = false)
    (happend : P (Event.appendFile FileId.forked u) = false)
    (hbranch : P (Event.api (ApiKind.defaultBranch (u ++ "/" ++ repoName))) = false)
    (hdiswf : P (Event.disableWf (u ++ "/" ++ repoName) "datagram-runner.yml") = false)
    (hmerge : P (Event.api (ApiKind.mergeUpstream (u ++ "/" ++ repoName))) = false) :
    ∀ e ∈ (account_step d env u mainU repoName forked).2.2, P e = false := by
  intro e he
  have hcr := create_new_fork_trace_pred env.create u (mainU ++ "/" ++ repoName) forked P
    hwrite hcreate hlog hprobe2 hsleep hdis2 happend
  have hsy := sync_trace_pred env.sync (u ++ "/" ++ repoName) P hbranch hdiswf hmerge hlog
  simp only [account_step] at he
  split at he
  · -- destructive mode
    split at he
    · -- a repository exists at the fork path
      split at he <;>
        simp only [delete_repository] at he <;>
        split at he <;>
        simp only [List.append_assoc, List.cons_append, List.nil_append,
          List.mem_cons, List.mem_append, List.not_mem_nil, or_false] at he
      · rcases he with he | he | he | he
        · rw [he]; exact hparent
        · rw [he]; exact hexists
        · rw [he]; exact hdelete
        · rw [he]; exact hsleep _
      · rcases he with he | he | he | he
        · rw [he]; exact hparent
        · rw [he]; exact hexists
        · rw [he]; exact hdelete
        · rw [he]; exact hlog _
      · rcases he with he | he | he | he | he
        · rw [he]; exact hparent
        · rw [he]; exact hexists
        · rw [he]; exact hdelete
        · rw [he]; exact hsleep _
        · rcases he with he | he
          · exact hcr e he
          · rw [he]; exact hsleep _
      · rcases he with he | he | he | he | he
        · rw [he]; exact hparent
        · rw [he]; exact hexists
        · rw [he]; exact hdelete
        · rw [he]; exact hlog _
        · rcases he with he | he
          · exact hcr e he
          · rw [he]; exact hsleep _
    · -- nothing to delete: straight to creation
      simp only [List.append_assoc, List.cons_append, List.nil_append,
        List.mem_cons, List.mem_append, List.not_mem_nil, or_false] at he
      rcases he with he | he | he
      · rw [he]; exact hparent
      · rw [he]; exact hexists
      · rcases he with he | he
        · exact hcr e he
        · rw [he]; exact hsleep _
  · -- sync-and-keep mode
    split at he <;>
      simp only [List.append_assoc, List.cons_append, List.nil_append,
        List.mem_cons, List.mem_append, List.not_mem_nil, or_false] at he
    · rcases he with he | he
      · rw [he]; exact hparent
      · rcases he with he | he
        · exact hsy e he
        · rw [he]; exact hsleep _
    · rcases he with he | he
      · rw [he]; exact hparent
      · rcases he with he | he
        · exact hcr e he
        · rw [he]; exact hsleep _

/-- Lift a per-step trace rejection through the orchestrator loop. -/
lemma orch_loop_trace_pred (envs : Nat → AccountEnv) (d : Bool)
    (mainU repoName : String) (P : Event → Bool) :
    ∀ (users : List String) (k : Nat) (forked : List String),
      (∀ j u forked2, u ∈ users →
        ∀ e ∈ (account_step d (envs j) u mainU repoName forked2).2.2, P e = false) →
      ∀ e ∈ (orch_loop envs d mainU repoName users k forked).2.2.2, P e = false := by
  intro users
  induction users with
  | nil => intro k forked _ e he; simp [orch_loop] at he
  | cons u rest ih =>
    intro k forked h e he
    simp only [orch_loop, List.mem_append] at he
    rcases he with he | he
    · exact h k u forked (List.mem_cons_self u rest) e he
    · exact ih (k + 1) _ (fun j v fk hv => h j v fk (List.mem_cons_of_mem u hv)) e he

/-! ## The Python `split('/')` on slash-free components -/

lemma splitSlash_no_slash : ∀ l : List Char, (∀ c ∈ l, c ≠ '/') →
    splitSlash l = [l] := by
  intro l
  induction l with
  | nil => intro _; rfl
  | cons c rest ih =>
    intro h
    have hc : c ≠ '/' := h c (List.mem_cons_self c rest)
    have hr := ih (fun x hx => h x (List.mem_cons_of_mem c hx))
    simp [splitSlash, hc, hr]

lemma splitSlash_append (b : List Char) : ∀ a : List Char, (∀ c ∈ a, c ≠ '/') →
    splitSlash (a ++ '/' :: b) = a :: splitSlash b := by
  intro a
  induction a with
  | nil => intro _; simp [splitSlash]
  | cons c rest ih =>
    intro h
    have hc : c ≠ '/' := h c (List.mem_cons_self c rest)
    have hr := ih (fun x hx => h x (List.mem_cons_of_mem c hx))
    simp [splitSlash, hc, hr]

/-- Source `splitSlash` never returns the empty list (every string has at
least one chunk). -/
lemma splitSlash_ne_nil : ∀ l : List Char, splitSlash l ≠ [] := by
  intro l
  cases l with
  | nil => simp [splitSlash]
  | cons c rest =>
    simp only [splitSlash]
    by_cases hc : c = '/'
    · simp [hc]
    · simp only [hc, if_false]
      cases splitSlash rest <;> simp

/-- On a well-formed `owner/repo` path with slash-free components,
Python's `split('/')` returns exactly the two components. -/
lemma pySplitSlash_pair (a b : String)
    (ha : ∀ c ∈ a.data, c ≠ '/') (hb : ∀ c ∈ b.data, c ≠ '/') :
    pySplitSlash (a ++ "/" ++ b) = [a, b] := by
  have hdata : (a ++ "/" ++ b).data = a.data ++ '/' :: b.data := by
    simp [String.data_append]
  simp only [pySplitSlash, hdata, splitSlash_append b.data a.data ha,
    splitSlash_no_slash b.data hb, List.map_cons, List.map_nil]

/-! ## Checklist bookkeeping lemmas -/

lemma mem_append_to_file (l : List String) (x u : String) (h : u ∈ l) :
    u ∈ append_to_file l x := by
  unfold append_to_file
  split
  · exact h
  · exact List.mem_append_left _ h

lemma count_append_to_file_ne (l : List String) (x u : String) (h : u ≠ x) :
    (append_to_file l x).count u = l.count u := by
  unfold append_to_file
  split
  · rfl
  · simp [List.count_append, List.count_singleton', h]

lemma count_filter_ne (l : List String) (x u : String) (h : u ≠ x) :
    (l.filter (fun line => line ≠ x)).count u = l.count u := by
  apply List.count_filter
  simp [h]

lemma create_new_fork_count_ne (env : CreateEnv) (x src : String)
    (forked : List String) (u : String) (h : u ≠ x) :
    ((create_new_fork env x src forked).2.1).count u = forked.count u := by
  have hrep : ((if x ∈ forked then forked.filter (fun line => line ≠ x)
      else forked)).count u = forked.count u := by
    split
    · exact count_filter_ne forked x u h
    · rfl
  simp only [create_new_fork]
  split
  · exact hrep
  · split
    · exact hrep
    · rw [count_append_to_file_ne _ _ _ h]
      exact hrep

lemma create_new_fork_mem_of_not_mem (env : CreateEnv) (x src : String)
    (forked : List String) (u : String) (hx : x ∉ forked) (hu : u ∈ forked) :
    u ∈ (create_new_fork env x src forked).2.1 := by
  simp only [create_new_fork, if_neg hx]
  split
  · exact hu
  · split
    · exact hu
    · exact mem_append_to_file _ _ _ hu

lemma create_new_fork_write_mem (env : CreateEnv) (x src : String)
    (forked : List String) (h : x ∈ forked) :
    Event.writeForkedFile (forked.filter (fun line => line ≠ x)) ∈
      (create_new_fork env x src forked).2.2 := by
  simp only [create_new_fork, if_pos h]
  split
  · simp
  · split <;> simp

lemma create_new_fork_no_write (env : CreateEnv) (x src : String)
    (forked : List String) (h : x ∉ forked) :
    ∀ e ∈ (create_new_fork env x src forked).2.2, isWriteEvent e = false := by
  intro e he
  have hpoll := pollFork_events env.probe
    (x ++ "/" ++ (pySplitSlash src).getD 1 "") fork_poll_max_iters 0
  simp only [List.getD_eq_getElem?_getD] at hpoll
  simp only [create_new_fork, if_neg h] at he
  split at he
  · simp at he
    rcases he with he | he <;> rw [he] <;> rfl
  · split at he <;> simp at he
    · rcases he with he | he
      · rw [he]; rfl
      · rcases hpoll e he with hh | hh <;> rw [hh] <;> rfl
    · rcases he with he | he | he | he
      · rw [he]; rfl
      · rcases hpoll e he with hh | hh <;> rw [hh] <;> rfl
      · rw [he]; rfl
      · rw [he]; rfl

lemma account_step_count_ne (d : Bool) (env : AccountEnv) (x mainU repoName : String)
    (forked : List String) (u : String) (h : u ≠ x) :
    ((account_step d env x mainU repoName forked).2.1).count u = forked.count u := by
  simp only [account_step]
  split
  · split
    · split
      · rfl
      · exact create_new_fork_count_ne env.create x _ forked u h
    · exact create_new_fork_count_ne env.create x _ forked u h
  · split
    · rfl
    · exact create_new_fork_count_ne env.create x _ forked u h

lemma orch_loop_count_ne (envs : Nat → AccountEnv) (d : Bool)
    (mainU repoName : String) :
    ∀ (users : List String) (k : Nat) (forked : List String) (u : String),
      u ∉ users →
      ((orch_loop envs d mainU repoName users k forked).1).count u = forked.count u := by
  intro users
  induction users with
  | nil => intro k forked u _; rfl
  | cons v rest ih =>
    intro k forked u hu
    have h1 : u ≠ v := fun he => hu (he ▸ List.mem_cons_self v rest)
    simp only [orch_loop]
    rw [ih (k + 1) _ u (fun hm => hu (List.mem_cons_of_mem v hm))]
    exact account_step_count_ne d (envs k) v mainU repoName forked u h1

/-! ## Candidate-set lemmas -/

lemma dedupFirst_subset : ∀ l : List String, ∀ x ∈ dedupFirst l, x ∈ l := by
  have key : ∀ (n : Nat) (l : List String), l.length ≤ n →
      ∀ x ∈ dedupFirst l, x ∈ l := by
    intro n
    induction n with
    | zero =>
      intro l hl x hx
      cases l with
      | nil => simp [dedupFirst] at hx
      | cons v rest => simp at hl
    | succ m ih =>
      intro l hl x hx
      cases l with
      | nil => simp [dedupFirst] at hx
      | cons v rest =>
        simp only [dedupFirst, List.mem_cons] at hx
        rcases hx with hx | hx
        · simp [hx]
        · have hlen : (rest.filter (fun w => w ≠ v)).length ≤ m :=
            le_trans (List.length_filter_le _ _) (by simpa using hl)
          have hmem := ih _ hlen x hx
          exact List.mem_cons_of_mem _ (List.mem_of_mem_filter hmem)
  intro l
  exact key l.length l (le_refl _)

lemma users_to_process_ne_main (cache : List String) (mainU u : String)
    (h : u ∈ users_to_process cache mainU) : u ≠ mainU := by
  have hf := dedupFirst_subset _ u h
  have := List.of_mem_filter hf
  simpa [bne_iff_ne] using this

lemma users_to_invite_spec (cache inv : List String) (mainU x : String)
    (h : x ∈ users_to_invite cache inv mainU) : x ∉ inv ∧ x ≠ mainU := by
  have := List.of_mem_filter h
  simp only [Bool.and_eq_true, Bool.not_eq_true', bne_iff_ne] at this
  refine ⟨fun hmem => ?_, this.2⟩
  have hc : inv.contains x = true := List.elem_eq_true_of_mem hmem
  rw [this.1] at hc
  exact Bool.false_ne_true hc

/-! ## Invite-flow lemmas -/

lemma invite_step_trace_events (res : OpResult) (v : String) (inv : List String) :
    ∀ e ∈ (invite_step res v inv).2.2,
      e = Event.api (ApiKind.invite v) ∨
      e = Event.appendFile FileId.invited v ∨
      e = Event.sleep 1 := by
  intro e he
  simp only [invite_step] at he
  split at he
  · simp only [List.mem_cons, List.not_mem_nil, or_false] at he
    tauto
  · split at he <;>
      simp only [List.mem_cons, List.not_mem_nil, or_false] at he <;> tauto

lemma invite_loop_no_invite_for (env : Nat → OpResult) (x : String) :
    ∀ (users : List String) (k : Nat) (inv : List String), x ∉ users →
      ∀ e ∈ (invite_loop env users k inv).2.2.2, isInviteEventFor x e = false := by
  intro users
  induction users with
  | nil => intro k inv _ e he; simp [invite_loop] at he
  | cons v rest ih =>
    intro k inv hx e he
    have hvx : v ≠ x := fun hh => hx (hh ▸ List.mem_cons_self v rest)
    simp only [invite_loop, List.mem_append] at he
    rcases he with he | he
    · rcases invite_step_trace_events (env k) v inv e he with hh | hh | hh <;>
        rw [hh] <;> simp [isInviteEventFor, hvx]
    · exact ih (k + 1) _ (fun hm => hx (List.mem_cons_of_mem v hm)) e he

lemma invite_loop_mem_mono (env : Nat → OpResult) :
    ∀ (users : List String) (k : Nat) (inv : List String) (u : String),
      u ∈ inv → u ∈ (invite_loop env users k inv).1 := by
  intro users
  induction users with
  | nil => intro k inv u h; exact h
  | cons v rest ih =>
    intro k inv u h
    simp only [invite_loop]
    apply ih
    simp only [invite_step]
    split
    · exact mem_append_to_file _ _ _ h
    · split
      · exact mem_append_to_file _ _ _ h
      · exact h

lemma invite_loop_no_target_main (env : Nat → OpResult) (mainU repoName : String) :
    ∀ (users : List String) (k : Nat) (inv : List String),
      (∀ v ∈ users, v ≠ mainU) →
      ∀ e ∈ (invite_loop env users k inv).2.2.2,
        eventTargetsMain mainU repoName e = false := by
  intro users
  induction users with
  | nil => intro k inv _ e he; simp [invite_loop] at he
  | cons v rest ih =>
    intro k inv hu e he
    have hv : v ≠ mainU := hu v (List.mem_cons_self v rest)
    simp only [invite_loop, List.mem_append] at he
    rcases he with he | he
    · rcases invite_step_trace_events (env k) v inv e he with hh | hh | hh <;>
        rw [hh] <;> simp [eventTargetsMain, apiTargetsMain, hv]
    · exact ih (k + 1) _ (fun w hw => hu w (List.mem_cons_of_mem v hw)) e he

/-! ## Sync lemma -/

lemma sync_has_merge (env : SyncEnv) (fr : String) :
    Event.api (ApiKind.mergeUpstream fr) ∈ (sync_fork_with_upstream env fr).2 := by
  simp only [sync_fork_with_upstream]
  split
  · simp
  · split <;> simp

/-! ## Fork-path disjointness -/

lemma forkPath_ne (u m r : String) (h : u ≠ m) :
    (u ++ "/" ++ r) ≠ (m ++ "/" ++ r) := by
  intro heq
  apply h
  have hd : u.data ++ '/' :: r.data = m.data ++ '/' :: r.data := by
    have := congrArg String.data heq
    simpa [String.data_append] using this
  have hud : u.data = m.data := List.append_left_injective _ hd
  exact congrArg String.mk hud

lemma count_append_to_file_self (l : List String) (x : String) (h : x ∉ l) :
    (append_to_file l x).count x = 1 := by
  simp [append_to_file, h, List.count_append, List.count_eq_zero.mpr h]

/-! ## Claims -/

/-- C3, counterexample: the claim says a failed sync whose error text
does not contain "already up-to-date" is classified as a failure, but
the code already treats the error `"name already exists"` — which does
not contain "already up-to-date" — as convergence-success, because its
keyword list also matches the bare substring "already". -/
theorem c3_counterexample :
    (resFail "name already exists").success = false ∧
    strContains (pyLower "name already exists") "already up-to-date" = false ∧
    (sync_fork_with_upstream { branchRes := resOk, syncRes := resFail "name already exists" }
      "alice/repo").1 = true := by
  refine ⟨rfl, by decide, by decide⟩

/-- C3, amended: for every failed Operation Result, invite failures are
classified as convergence-success exactly when the lowercased error
contains "already a collaborator"; sync failures exactly when it
contains "up-to-date", "up to date" or "already"; fork-creation
failures containing "forks must have unique names" behave exactly like
a successful creation call, and any other fork-creation failure is
classified as a failure (the call returns failure before any readiness
probe). -/
theorem c3_error_classification (res : OpResult) (h : res.success = false) :
    (∀ (u : String) (inv : List String),
      (invite_step res u inv).2.1 = strContains (pyLower res.error) "already a collaborator") ∧
    (∀ (brRes : OpResult) (fr : String),
      (sync_fork_with_upstream { branchRes := brRes, syncRes := res } fr).1 =
        (strContains (pyLower res.error) "up-to-date" ||
         strContains (pyLower res.error) "up to date" ||
         strContains (pyLower res.error) "already")) ∧
    (∀ (probe : Nat → OpResult) (u src : String) (forked : List String),
      (strContains (pyLower res.error) "forks must have unique names" = true →
        create_new_fork { forkCreateRes := res, probe := probe } u src forked =
          create_new_fork { forkCreateRes := { res with success := true }, probe := probe }
            u src forked) ∧
      (strContains (pyLower res.error) "forks must have unique names" = false →
        (create_new_fork { forkCreateRes := res, probe := probe } u src forked).1 = false ∧
        ∀ e ∈ (create_new_fork { forkCreateRes := res, probe := probe } u src forked).2.2,
          isProbeEvent e = false)) := by
  refine ⟨?_, ?_, ?_⟩
  · intro u inv
    by_cases hc : strContains (pyLower res.error) "already a collaborator" = true
    · simp [invite_step, h, invite_error_is_convergence, hc]
    · simp only [Bool.not_eq_true] at hc
      simp [invite_step, h, invite_error_is_convergence, hc]
  · intro brRes fr
    by_cases hc : sync_error_is_convergence res.error = true
    · have hc2 := hc
      simp only [sync_error_is_convergence] at hc2
      simp [sync_fork_with_upstream, h, hc, hc2]
    · simp only [Bool.not_eq_true] at hc
      have hc2 := hc
      simp only [sync_error_is_convergence] at hc2
      simp [sync_fork_with_upstream, h, hc, hc2]
  · intro probe u src forked
    constructor
    · intro hc
      have hc2 : fork_error_is_convergence res.error = true := hc
      simp [create_new_fork, h, hc2]
    · intro hc
      have hc2 : fork_error_is_convergence res.error = false := hc
      constructor
      · simp [create_new_fork, h, hc2]
      · intro e he
        simp only [create_new_fork, h, hc2] at he
        by_cases hmem : u ∈ forked
        · simp [hmem] at he
          rcases he with he | he | he <;> rw [he] <;> rfl
        · simp [hmem] at he
          rcases he with he | he <;> rw [he] <;> rfl

/-- C3, witness for the amended classification theorem. -/
theorem c3_error_classification_w :
    (invite_step (resFail "User is already a collaborator") "bob" []).2.1 =
      strContains (pyLower "User is already a collaborator") "already a collaborator" :=
  (c3_error_classification (resFail "User is already a collaborator") rfl).1 "bob" []

/-- C6: in destructive mode, any confirmation answer that does not
lowercase to "y" aborts the whole batch before any account is touched —
no remote call, no checklist change, zero counts, empty trace. -/
theorem c6_confirmation_declined (envs : Nat → AccountEnv) (confirm : String)
    (cacheValues forked : List String) (mainU repoName : String)
    (h : pyLower confirm ≠ "y") :
    invoke_auto_create_or_sync_fork envs "2" confirm cacheValues forked mainU repoName =
      (forked, 0, 0, []) := by
  have hb : (pyLower confirm != "y") = true := bne_iff_ne.mpr h
  simp [invoke_auto_create_or_sync_fork, hb]

/-- C6, witness. -/
theorem c6_confirmation_declined_w :
    invoke_auto_create_or_sync_fork (fun _ => envDeleteOk) "2" "n"
      ["alice", "main"] [] "main" "repo" = ([], 0, 0, []) :=
  c6_confirmation_declined (fun _ => envDeleteOk) "n" ["alice", "main"] []
    "main" "repo" (by decide)

/-- C10: an account already recorded in the accepted checklist is
skipped with no remote call and no checklist change, so a re-run is a
remote no-op for it; the loop records it as skipped and continues with
the identical state. -/
theorem c10_accept_rerun_noop (env : AcceptEnv) (username target : String)
    (accepted : List String) (h : username ∈ accepted) :
    accept_step env username target accepted = (accepted, AcceptOutcome.skipped, []) ∧
    (∀ (envs : Nat → AcceptEnv) (rest : List String) (k : Nat),
      accept_loop envs target (username :: rest) k accepted =
        ((accept_loop envs target rest (k + 1) accepted).1,
         AcceptOutcome.skipped :: (accept_loop envs target rest (k + 1) accepted).2.1,
         (accept_loop envs target rest (k + 1) accepted).2.2)) := by
  constructor
  · simp [accept_step, h]
  · intro envs rest k
    simp [accept_loop, accept_step, h]

/-- C10, witness. -/
theorem c10_accept_rerun_noop_w :
    accept_step envParseFail "alice" "main/repo" ["alice"] =
      (["alice"], AcceptOutcome.skipped, []) :=
  (c10_accept_rerun_noop envParseFail "alice" "main/repo" ["alice"] (by decide)).1

/-- C8: a JSON parse failure on an account's invitation listing leaves
the accepted checklist unchanged, issues no accept call (the only
remote call in its trace is the listing fetch), and the loop proceeds
to the remaining accounts exactly as if the account had merely had no
invitation. -/
theorem c8_parse_failure (env : AcceptEnv) (username target : String)
    (accepted : List String)
    (h1 : username ∉ accepted)
    (h2 : env.fetchRes.success = true)
    (h3 : env.parsed = none) :
    accept_step env username target accepted =
      (accepted, AcceptOutcome.parseFailed,
        [Event.api (ApiKind.listInvitations username), Event.sleep 1]) ∧
    (∀ (envs : Nat → AcceptEnv) (rest : List String) (k : Nat), envs k = env →
      accept_loop envs target (username :: rest) k accepted =
        ((accept_loop envs target rest (k + 1) accepted).1,
         AcceptOutcome.parseFailed :: (accept_loop envs target rest (k + 1) accepted).2.1,
         Event.api (ApiKind.listInvitations username) :: Event.sleep 1 ::
           (accept_loop envs target rest (k + 1) accepted).2.2)) := by
  constructor
  · simp [accept_step, h1, h2, h3]
  · intro envs rest k hk
    simp [accept_loop, hk, accept_step, h1, h2, h3]

/-- C8, witness. -/
theorem c8_parse_failure_w :
    accept_step envParseFail "bob" "main/repo" [] =
      ([], AcceptOutcome.parseFailed,
        [Event.api (ApiKind.listInvitations "bob"), Event.sleep 1]) :=
  (c8_parse_failure envParseFail "bob" "main/repo" [] (List.not_mem_nil "bob") rfl rfl).1

/-- C2: the readiness poll of `create_new_fork` emits only existence
probes and fixed 5-unit interval sleeps, sleeps at most the 120-unit
timeout in total, `create_new_fork` reports success only after at least
one successful existence probe, and if no probe within the bound
succeeds the call returns failure. -/
theorem c2_poll_bound (probe : Nat → OpResult) (repo : String) (env : CreateEnv)
    (u src : String) (forked : List String) :
    (∀ e ∈ (pollFork probe repo fork_poll_max_iters 0).2,
      e = Event.api (ApiKind.existsProbe repo) ∨ e = Event.sleep fork_poll_interval) ∧
    sleepTotal (pollFork probe repo fork_poll_max_iters 0).2 ≤ fork_wait_timeout ∧
    ((create_new_fork env u src forked).1 = true →
      ∃ k, k < fork_poll_max_iters ∧ (env.probe k).success = true) ∧
    ((∀ k, k < fork_poll_max_iters → (env.probe k).success = false) →
      (create_new_fork env u src forked).1 = false) := by
  refine ⟨pollFork_events probe repo fork_poll_max_iters 0, ?_, ?_, ?_⟩
  · have hb := pollFork_sleepTotal probe repo fork_poll_max_iters 0
    have he : fork_poll_max_iters * fork_poll_interval = fork_wait_timeout := by decide
    omega
  · intro h
    simp only [create_new_fork] at h
    split at h
    · simp at h
    · split at h
      · simp at h
      · rename_i hp
        obtain ⟨j, hj0, hj1, hj2⟩ :=
          pollFork_ready_has_success env.probe _ fork_poll_max_iters 0 (by simpa using hp)
        exact ⟨j, by omega, hj2⟩
  · intro hall
    have hpoll : (pollFork env.probe
        (u ++ "/" ++ (pySplitSlash src).getD 1 "") fork_poll_max_iters 0).1 = false :=
      pollFork_all_fail env.probe _ fork_poll_max_iters 0
        (fun j hj => by simpa using hall j hj)
    simp only [List.getD_eq_getElem?_getD] at hpoll
    simp only [create_new_fork]
    split
    · rfl
    · simp [hpoll]

/-- C2, witness. -/
theorem c2_poll_bound_w :
    (∃ k, k < fork_poll_max_iters ∧ (envCreateOk.probe k).success = true) ∧
    (create_new_fork envCreateNever "alice" "main/repo" []).1 = false :=
  ⟨(c2_poll_bound probeAlways "alice/repo" envCreateOk "alice" "main/repo" []).2.2.1
      (by decide),
   (c2_poll_bound probeNever "alice/repo" envCreateNever "alice" "main/repo" []).2.2.2
      (fun k _ => rfl)⟩

/-- C4: in Sync & Keep mode, an account whose parentage probe validates
the fork takes the sync path — its trace contains the merge-from-
upstream call and no fork-creation call, and the forked checklist is
untouched; an account whose fork is invalid or absent takes the create
path — its trace contains no merge-from-upstream call at all. -/
theorem c4_sync_keep_paths (env : AccountEnv) (u mainU repoName : String)
    (forked : List String) :
    (check_if_correct_fork env.parentRes (mainU ++ "/" ++ repoName) = true →
      (∀ e ∈ (account_step false env u mainU repoName forked).2.2,
        isCreateEvent e = false) ∧
      Event.api (ApiKind.mergeUpstream (u ++ "/" ++ repoName)) ∈
        (account_step false env u mainU repoName forked).2.2 ∧
      (account_step false env u mainU repoName forked).2.1 = forked) ∧
    (check_if_correct_fork env.parentRes (mainU ++ "/" ++ repoName) = false →
      ∀ e ∈ (account_step false env u mainU repoName forked).2.2,
        isMergeEvent e = false) := by
  constructor
  · intro hvalid
    refine ⟨?_, ?_, ?_⟩
    · intro e he
      simp only [account_step, Bool.false_eq_true, if_false, hvalid, if_true] at he
      simp only [List.append_assoc, List.cons_append, List.nil_append,
        List.mem_cons, List.mem_append, List.not_mem_nil, or_false] at he
      rcases he with he | he
      · rw [he]; rfl
      · rcases he with he | he
        · exact sync_trace_pred env.sync (u ++ "/" ++ repoName) isCreateEvent
            rfl rfl rfl (fun m => rfl) e he
        · rw [he]; rfl
    · simp only [account_step, Bool.false_eq_true, if_false, hvalid, if_true]
      have hm := sync_has_merge env.sync (u ++ "/" ++ repoName)
      simp only [List.append_assoc, List.cons_append, List.nil_append,
        List.mem_cons, List.mem_append, List.not_mem_nil, or_false]
      tauto
    · simp [account_step, hvalid]
  · intro hvalid e he
    simp only [account_step, Bool.false_eq_true, if_false, hvalid,
      Bool.false_eq_true] at he
    simp only [List.append_assoc, List.cons_append, List.nil_append,
      List.mem_cons, List.mem_append, List.not_mem_nil, or_false] at he
    rcases he with he | he
    · rw [he]; rfl
    · rcases he with he | he
      · exact create_new_fork_trace_pred env.create u (mainU ++ "/" ++ repoName)
          forked isMergeEvent rfl rfl (fun m => rfl) rfl (fun n => rfl) rfl rfl e he
      · rw [he]; rfl

/-- C4, witness. -/
theorem c4_sync_keep_paths_w :
    Event.api (ApiKind.mergeUpstream ("alice" ++ "/" ++ "repo")) ∈
      (account_step false envValidFork "alice" "main" "repo" []).2.2 ∧
    (account_step false envValidFork "alice" "main" "repo" []).2.1 = [] :=
  ⟨((c4_sync_keep_paths envValidFork "alice" "main" "repo" []).1 (by decide)).2.1,
   ((c4_sync_keep_paths envValidFork "alice" "main" "repo" []).1 (by decide)).2.2⟩

/-- C1: in destructive mode, when a repository exists at the fork path,
the deletion call strictly precedes any fork-creation call in the
account's trace; a failed deletion yields a failed account with the
forked checklist untouched and no fork-creation call in its trace; no
other account's iteration ever issues a fork-creation call on this
account's behalf; and in the batch loop a failed account adds one to
the failed count while the loop continues with the remaining
accounts. -/
theorem c1_destructive_ordering (env : AccountEnv) (u mainU repoName : String)
    (forked : List String) (hex : env.existsRes.success = true) :
    occursBeforeAny isDeleteEvent isCreateEvent
      (account_step true env u mainU repoName forked).2.2 = true ∧
    (env.deleteRes.success = false →
      (account_step true env u mainU repoName forked).1 = false ∧
      (account_step true env u mainU repoName forked).2.1 = forked ∧
      ∀ e ∈ (account_step true env u mainU repoName forked).2.2,
        isCreateEvent e = false) ∧
    (∀ (env2 : AccountEnv) (v : String) (forked2 : List String), v ≠ u →
      ∀ e ∈ (account_step true env2 v mainU repoName forked2).2.2,
        isCreateEventFor u e = false) ∧
    (∀ (envs : Nat → AccountEnv) (rest : List String) (k : Nat),
      (account_step true (envs k) u mainU repoName forked).1 = false →
      (orch_loop envs true mainU repoName (u :: rest) k forked).2.2.1 =
        1 + (orch_loop envs true mainU repoName rest (k + 1)
              (account_step true (envs k) u mainU repoName forked).2.1).2.2.1 ∧
      (orch_loop envs true mainU repoName (u :: rest) k forked).2.2.2 =
        (account_step true (envs k) u mainU repoName forked).2.2 ++
          (orch_loop envs true mainU repoName rest (k + 1)
            (account_step true (envs k) u mainU repoName forked).2.1).2.2.2) := by
  refine ⟨?_, ?_, ?_, ?_⟩
  · by_cases hdel : env.deleteRes.success = true
    · simp [account_step, hex, delete_repository, hdel, occursBeforeAny,
        isDeleteEvent, isCreateEvent]
    · simp only [Bool.not_eq_true] at hdel
      simp [account_step, hex, delete_repository, hdel, occursBeforeAny,
        isDeleteEvent, isCreateEvent]
  · intro hdel
    refine ⟨?_, ?_, ?_⟩
    · simp [account_step, hex, delete_repository, hdel]
    · simp [account_step, hex, delete_repository, hdel]
    · intro e he
      simp only [account_step, hex, delete_repository, hdel] at he
      simp at he
      rcases he with he | he | he | he <;> rw [he] <;> rfl
  · intro env2 v forked2 hvu e he
    have hvu2 : (v == u) = false := beq_eq_false_iff_ne.mpr hvu
    exact account_step_trace_pred true env2 v mainU repoName forked2
      (isCreateEventFor u) rfl rfl rfl (fun n => rfl) (fun m => rfl) rfl
      (by simp [isCreateEventFor, hvu2]) rfl rfl rfl rfl rfl rfl e he
  · intro envs rest k hfail
    constructor
    · simp [orch_loop, hfail]
    · simp [orch_loop]

/-- C1, witness. -/
theorem c1_destructive_ordering_w :
    occursBeforeAny isDeleteEvent isCreateEvent
      (account_step true envDeleteFail "alice" "main" "repo" []).2.2 = true ∧
    (account_step true envDeleteFail "alice" "main" "repo" []).1 = false ∧
    (account_step true envDeleteFail "alice" "main" "repo" []).2.1 = [] :=
  ⟨(c1_destructive_ordering envDeleteFail "alice" "main" "repo" [] rfl).1,
   ((c1_destructive_ordering envDeleteFail "alice" "main" "repo" [] rfl).2.1 rfl).1,
   ((c1_destructive_ordering envDeleteFail "alice" "main" "repo" [] rfl).2.1 rfl).2.1⟩

/-- C5: the invite flow never issues an invite call for an account
already recorded in the invited checklist at the start of the run (so a
second run re-invites nobody the first run recorded); an "already a
collaborator" failure is handled identically to a fresh successful
invite; a successful or already-a-collaborator invite for an account
not yet on the checklist puts it there exactly once; and checklist
membership only grows across a run. -/
theorem c5_invite_idempotent (env : Nat → OpResult) (cacheValues invited : List String)
    (mainU : String) :
    (∀ u, u ∈ invited →
      ∀ e ∈ (invoke_auto_invite env cacheValues invited mainU).2.2.2,
        isInviteEventFor u e = false) ∧
    (∀ (res1 res2 : OpResult) (v : String) (inv : List String),
      res1.success = true → res2.success = false →
      invite_error_is_convergence res2.error = true →
      invite_step res2 v inv = invite_step res1 v inv) ∧
    (∀ (res : OpResult) (v : String) (inv : List String),
      v ∉ inv → (res.success = true ∨ invite_error_is_convergence res.error = true) →
      ((invite_step res v inv).1).count v = 1) ∧
    (∀ u, u ∈ invited → u ∈ (invoke_auto_invite env cacheValues invited mainU).1) := by
  refine ⟨?_, ?_, ?_, ?_⟩
  · intro u hu e he
    have hx : u ∉ users_to_invite cacheValues invited mainU :=
      fun hmem => (users_to_invite_spec cacheValues invited mainU u hmem).1 hu
    simp only [invoke_auto_invite] at he
    exact invite_loop_no_invite_for env u _ 0 invited hx e he
  · intro res1 res2 v inv h1 h2 hc
    simp [invite_step, h1, h2, hc]
  · intro res v inv hv hres
    rcases hres with hres | hres
    · simp [invite_step, hres, count_append_to_file_self inv v hv]
    · by_cases hs : res.success = true
      · simp [invite_step, hs, count_append_to_file_self inv v hv]
      · simp only [Bool.not_eq_true] at hs
        simp [invite_step, hs, hres, count_append_to_file_self inv v hv]
  · intro u hu
    simp only [invoke_auto_invite]
    exact invite_loop_mem_mono env _ 0 invited u hu

/-- C5, witness. -/
theorem c5_invite_idempotent_w :
    (∀ e ∈ (invoke_auto_invite (fun _ => resOk) ["alice", "bob"] ["alice"] "main").2.2.2,
      isInviteEventFor "alice" e = false) ∧
    invite_step (resFail "user is already a collaborator") "bob" [] =
      invite_step resOk "bob" [] ∧
    ((invite_step resOk "bob" ["alice"]).1).count "bob" = 1 :=
  ⟨(c5_invite_idempotent (fun _ => resOk) ["alice", "bob"] ["alice"] "main").1
      "alice" (by decide),
   (c5_invite_idempotent (fun _ => resOk) [] [] "main").2.1
      resOk (resFail "user is already a collaborator") "bob" [] rfl rfl (by decide),
   (c5_invite_idempotent (fun _ => resOk) [] [] "main").2.2.1
      resOk "bob" ["alice"] (by decide) (Or.inl rfl)⟩

/-- C7: the stale-entry repair in `create_new_fork` touches only the
re-attempted account's record — every other account's multiplicity in
the forked checklist is preserved exactly; the repair write appears in
the trace precisely when the account was recorded; when it was not
recorded nothing is ever removed (membership is preserved and no
repair write occurs); and the whole batch orchestrator preserves the
record of every account it does not process. -/
theorem c7_stale_repair (env : CreateEnv) (x src : String) (forked : List String) :
    (∀ u, u ≠ x →
      ((create_new_fork env x src forked).2.1).count u = forked.count u) ∧
    (x ∈ forked →
      Event.writeForkedFile (forked.filter (fun line => line ≠ x)) ∈
        (create_new_fork env x src forked).2.2) ∧
    (x ∉ forked →
      (∀ u ∈ forked, u ∈ (create_new_fork env x src forked).2.1) ∧
      ∀ e ∈ (create_new_fork env x src forked).2.2, isWriteEvent e = false) ∧
    (∀ (envs : Nat → AccountEnv) (action confirm : String)
       (cacheValues : List String) (mainU repoName : String) (u : String),
      u ∉ users_to_process cacheValues mainU →
      ((invoke_auto_create_or_sync_fork envs action confirm cacheValues forked
          mainU repoName).1).count u = forked.count u) := by
  refine ⟨?_, ?_, ?_, ?_⟩
  · intro u hu
    exact create_new_fork_count_ne env x src forked u hu
  · intro hx
    exact create_new_fork_write_mem env x src forked hx
  · intro hx
    exact ⟨fun u hu => create_new_fork_mem_of_not_mem env x src forked u hx hu,
      create_new_fork_no_write env x src forked hx⟩
  · intro envs action confirm cacheValues mainU repoName u hu
    simp only [invoke_auto_create_or_sync_fork]
    split
    · rfl
    · split
      · rfl
      · exact orch_loop_count_ne envs (action == "2") mainU repoName _ 0 forked u hu

/-- C7, witness. -/
theorem c7_stale_repair_w :
    ((create_new_fork envCreateOk "alice" "main/repo" ["alice", "bob"]).2.1).count "bob" =
      (["alice", "bob"] : List String).count "bob" ∧
    Event.writeForkedFile ((["alice", "bob"] : List String).filter
        (fun line => line ≠ "alice")) ∈
      (create_new_fork envCreateOk "alice" "main/repo" ["alice", "bob"]).2.2 :=
  ⟨(c7_stale_repair envCreateOk "alice" "main/repo" ["alice", "bob"]).1 "bob" (by decide),
   (c7_stale_repair envCreateOk "alice" "main/repo" ["alice", "bob"]).2.1 (by decide)⟩

/-- C9: with slash-free main-account and repository names, no event of
the fork orchestrator and no event of the invite flow targets the main
account — no invite of the main account, no fork created on its
behalf, and no deletion, sync or probe aimed at the main account's own
copy of the repository. -/
theorem c9_main_excluded (envs : Nat → AccountEnv) (action confirm : String)
    (cacheValues forked invited : List String) (mainU repoName : String)
    (env2 : Nat → OpResult)
    (hm : ∀ c ∈ mainU.data, c ≠ '/') (hr : ∀ c ∈ repoName.data, c ≠ '/') :
    (∀ e ∈ (invoke_auto_create_or_sync_fork envs action confirm cacheValues forked
        mainU repoName).2.2.2, eventTargetsMain mainU repoName e = false) ∧
    (∀ e ∈ (invoke_auto_invite env2 cacheValues invited mainU).2.2.2,
      eventTargetsMain mainU repoName e = false) := by
  constructor
  · simp only [invoke_auto_create_or_sync_fork]
    split
    · intro e he; simp at he
    · split
      · intro e he; simp at he
      · apply orch_loop_trace_pred
        intro j v forked2 hv e he
        have hvm : v ≠ mainU := users_to_process_ne_main cacheValues mainU v hv
        have hpne : (v ++ "/" ++ repoName) ≠ (mainU ++ "/" ++ repoName) :=
          forkPath_ne v mainU repoName hvm
        have hbeq : ((v ++ "/" ++ repoName) == (mainU ++ "/" ++ repoName)) = false :=
          beq_eq_false_iff_ne.mpr hpne
        have hvmb : (v == mainU) = false := beq_eq_false_iff_ne.mpr hvm
        have hsplit : (pySplitSlash (mainU ++ "/" ++ repoName))[1]?.getD "" = repoName := by
          rw [pySplitSlash_pair mainU repoName hm hr]
          rfl
        refine account_step_trace_pred _ _ v mainU repoName forked2 _
          (by simp [eventTargetsMain, apiTargetsMain, hbeq])
          (by simp [eventTargetsMain, apiTargetsMain, hbeq])
          (by simp [eventTargetsMain, apiTargetsMain, hbeq])
          (fun n => rfl) (fun m => rfl) rfl
          (by simp [eventTargetsMain, apiTargetsMain, hvmb])
          (by simp [hsplit, eventTargetsMain, apiTargetsMain, hbeq])
          rfl rfl
          (by simp [eventTargetsMain, apiTargetsMain, hbeq])
          rfl
          (by simp [eventTargetsMain, apiTargetsMain, hbeq])
          e he
  · intro e he
    simp only [invoke_auto_invite] at he
    refine invite_loop_no_target_main env2 mainU repoName _ 0 invited ?_ e he
    intro v hv
    exact (users_to_invite_spec cacheValues invited mainU v hv).2

/-- C9, witness. -/
theorem c9_main_excluded_w :
    ((invoke_auto_create_or_sync_fork (fun _ => envValidFork) "1" "y" ["alice", "main"]
        [] "main" "repo").2.2.2).all
      (fun e => !eventTargetsMain "main" "repo" e) = true := by
  have h := (c9_main_excluded (fun _ => envValidFork) "1" "y" ["alice", "main"] [] []
    "main" "repo" (fun _ => resOk) (by decide) (by decide)).1
  exact List.all_eq_true.mpr (fun e he => by simp [h e he])
